import Mathlib

/-!
Verification of the ride-sharing booking and cancellation engine.

The definitions below are a shallow embedding of the ride router
(`routes/ride.*`): `createRide`, `joinRide`, `startRide`, `completeRide`
and `cancelRide` are translated directly from the corresponding Express
handlers, with the Prisma store modelled as an explicit `World` record
of lists and JavaScript numbers modelled as rationals (`ℚ`) and
integers.  JavaScript `Date` values are modelled by a `DateTime`
record of calendar fields, with `getTime` collapsing them to epoch
milliseconds.
-/

namespace RideShare

inductive RideStatus where
  | open_
  | active
  | completed
  | cancelled
deriving DecidableEq, Repr

inductive PStatus where
  | booked
  | cancelled
deriving DecidableEq, Repr

inductive VehicleType where
  | car
  | suv
  | auto
deriving DecidableEq, Repr

/-- A JavaScript `Date`, abstracted: `days` is the calendar date
(collapsed to a day index), the remaining fields are the time of day. -/
structure DateTime where
  days : Int
  hour : Int
  minute : Int
  second : Int
  ms : Int
deriving DecidableEq, Repr

/-- `Date.prototype.getTime`: epoch milliseconds. -/
def DateTime.getTime (d : DateTime) : Int :=
  (((d.days * 24 + d.hour) * 60 + d.minute) * 60 + d.second) * 1000 + d.ms

structure User where
  user_id : Nat
  credibility_score : ℚ
  cancellation_count : Nat
deriving DecidableEq, Repr

structure Vehicle where
  vehicle_id : Nat
  user_id : Nat
  vehicle_type : VehicleType
deriving DecidableEq, Repr

structure Ride where
  ride_id : Nat
  driver_id : Nat
  vehicle_id : Nat
  start_location : String
  end_location : String
  start_date : DateTime
  start_time : DateTime
  total_fare : ℚ
  max_passengers : Int
  status : RideStatus
deriving DecidableEq, Repr

structure RideParticipant where
  id : Nat
  ride_id : Nat
  user_id : Nat
  status : PStatus
  share_fare : ℚ
  booking_time : Int
deriving DecidableEq, Repr

/-- Append-only `RideCancellation` audit row. -/
structure RideCancellation where
  ride_id : Nat
  user_id : Nat
  cancelled_at : Int
deriving DecidableEq, Repr

/-- The transactional store: each field is one Prisma table.  `nextPid`
supplies fresh primary keys for new participant rows. -/
structure World where
  rides : List Ride
  participants : List RideParticipant
  users : List User
  vehicles : List Vehicle
  cancellations : List RideCancellation
  nextPid : Nat
deriving DecidableEq, Repr

/-- `prisma.ride.findUnique({ where: { ride_id } })`. -/
def findRide (w : World) (rid : Nat) : Option Ride :=
  w.rides.find? (fun r => r.ride_id == rid)

/-- `prisma.rideParticipant.findUnique` on the `(ride_id, user_id)` key. -/
def findParticipant (w : World) (rid uid : Nat) : Option RideParticipant :=
  w.participants.find? (fun p => p.ride_id == rid && p.user_id == uid)

/-- `prisma.user.findUnique({ where: { user_id } })`. -/
def findUser (w : World) (uid : Nat) : Option User :=
  w.users.find? (fun u => u.user_id == uid)

/-- Count of `booked` participant rows of one ride in a participant table. -/
def bookedOf (l : List RideParticipant) (rid : Nat) : Nat :=
  (l.filter (fun p => p.ride_id == rid && p.status == PStatus.booked)).length

/-- `ride.participants.filter(p => p.status === "booked").length`. -/
def bookedCount (w : World) (rid : Nat) : Nat :=
  bookedOf w.participants rid

inductive JoinError where
  | RideNotFound
  | RideNotOpen
  | CannotBookOwnRide
  | AlreadyInActiveRide
  | RideFull
  | AlreadyBooked
deriving DecidableEq, Repr

inductive StartError where
  | RideNotFound
  | NotRideOwner
  | InvalidState
  | TooEarly
deriving DecidableEq, Repr

inductive CancelError where
  | RideNotFound
  | NotRideOwner
deriving DecidableEq, Repr

/-- The `POST /rides/join` active-booking query: a participant row of the
caller with status `booked` whose ride satisfies the filter
`status in ["open", "booked"] && start_date >= now`.  The literal
`"booked"` in the source names a participant status, not a ride status,
so of the ride statuses only `open` can match the `in` filter. -/
def hasActiveBooking (w : World) (uid : Nat) (now : DateTime) : Bool :=
  w.participants.any (fun p =>
    p.user_id == uid && p.status == PStatus.booked &&
    w.rides.any (fun r =>
      r.ride_id == p.ride_id &&
      r.status == RideStatus.open_ &&
      decide (now.getTime ≤ r.start_date.getTime)))

/-- `POST /rides/join`, translated check for check from the handler. -/
def joinRide (w : World) (uid rid : Nat) (now : DateTime) :
    Except JoinError (World × RideParticipant) :=
  match findRide w rid with
  | none => .error .RideNotFound
  | some ride =>
    if ride.status ≠ RideStatus.open_ then .error .RideNotOpen
    else if ride.driver_id == uid then .error .CannotBookOwnRide
    else if hasActiveBooking w uid now then .error .AlreadyInActiveRide
    else if (bookedCount w rid : Int) + 1 ≥ ride.max_passengers then
      .error .RideFull
    else
      match findParticipant w rid uid with
      | some e =>
        if e.status == PStatus.booked then .error .AlreadyBooked
        else
          .ok ({ w with participants := w.participants.map (fun p =>
                   if p.id == e.id then
                     { p with status := PStatus.booked,
                              share_fare := ride.total_fare /
                                ((bookedCount w rid : ℚ) + 2) }
                   else p) },
               { e with status := PStatus.booked,
                        share_fare := ride.total_fare /
                          ((bookedCount w rid : ℚ) + 2) })
      | none =>
        .ok ({ w with
                participants := w.participants ++
                  [{ id := w.nextPid, ride_id := rid, user_id := uid,
                     status := PStatus.booked,
                     share_fare := ride.total_fare /
                       ((bookedCount w rid : ℚ) + 2),
                     booking_time := now.getTime }],
                nextPid := w.nextPid + 1 },
             { id := w.nextPid, ride_id := rid, user_id := uid,
               status := PStatus.booked,
               share_fare := ride.total_fare / ((bookedCount w rid : ℚ) + 2),
               booking_time := now.getTime })

/-- The instant built by `POST /rides/start`:
`new Date(date.getFullYear(), ..., time.getHours(), ..., time.getMilliseconds())`. -/
def scheduledStart (r : Ride) : DateTime :=
  { days := r.start_date.days, hour := r.start_time.hour,
    minute := r.start_time.minute, second := r.start_time.second,
    ms := r.start_time.ms }

/-- `prisma.ride.update` setting only the status. -/
def updateRideStatus (l : List Ride) (rid : Nat) (s : RideStatus) : List Ride :=
  l.map (fun r => if r.ride_id == rid then { r with status := s } else r)

/-- `POST /rides/start`. -/
def startRide (w : World) (uid rid : Nat) (now : DateTime) :
    Except StartError World :=
  match findRide w rid with
  | none => .error .RideNotFound
  | some ride =>
    if ride.driver_id ≠ uid then .error .NotRideOwner
    else if ride.status ≠ RideStatus.open_ then .error .InvalidState
    else if now.getTime < (scheduledStart ride).getTime then .error .TooEarly
    else .ok { w with rides := updateRideStatus w.rides rid RideStatus.active }

/-- `POST /rides/complete`. -/
def completeRide (w : World) (uid rid : Nat) : Except StartError World :=
  match findRide w rid with
  | none => .error .RideNotFound
  | some ride =>
    if ride.driver_id ≠ uid then .error .NotRideOwner
    else if ride.status ≠ RideStatus.active then .error .InvalidState
    else .ok { w with rides := updateRideStatus w.rides rid RideStatus.completed }

/-- The instant built by `POST /rides/cancel`:
`new Date(ride.start_date)` followed by `setHours(time.getHours(),
time.getMinutes())`, which keeps the date row's seconds and milliseconds. -/
def cancelStart (r : Ride) : DateTime :=
  { days := r.start_date.days, hour := r.start_time.hour,
    minute := r.start_time.minute, second := r.start_date.second,
    ms := r.start_date.ms }

/-- `diffHours = (startDateTime.getTime() - now.getTime()) / (1000*60*60)`. -/
def diffHours (r : Ride) (now : DateTime) : ℚ :=
  (((cancelStart r).getTime - now.getTime : Int) : ℚ) / 3600000

/-- JavaScript `Math.round`: floor of the argument plus one half. -/
def jsRound (q : ℚ) : Int := ⌊q + 1 / 2⌋

inductive CancelResult where
  | participant (penalty : ℚ)
  | driver (transferred : Bool)
deriving DecidableEq, Repr

/-- `prisma.user.update` incrementing `cancellation_count` and
decrementing `credibility_score`. -/
def updateUserPenalty (l : List User) (uid : Nat) (dec : ℚ) : List User :=
  l.map (fun u =>
    if u.user_id == uid then
      { u with cancellation_count := u.cancellation_count + 1,
               credibility_score := u.credibility_score - dec }
    else u)

/-- Ordering used by `orderBy: { booking_time: "asc" }`. -/
def byBookingTime (a b : RideParticipant) : Prop :=
  a.booking_time ≤ b.booking_time

instance : DecidableRel byBookingTime := fun a b =>
  inferInstanceAs (Decidable (a.booking_time ≤ b.booking_time))

instance : IsTotal RideParticipant byBookingTime :=
  ⟨fun a b => Int.le_total a.booking_time b.booking_time⟩

instance : IsTrans RideParticipant byBookingTime :=
  ⟨fun _ _ _ hab hbc => le_trans hab hbc⟩

/-- The `booked` participants of a ride ordered by `booking_time`
ascending, as fetched by the driver branch of `POST /rides/cancel`. -/
def bookedSorted (w : World) (rid : Nat) : List RideParticipant :=
  List.insertionSort byBookingTime
    (w.participants.filter (fun p => p.ride_id == rid && p.status == PStatus.booked))

/-- `POST /rides/cancel`.  The branch is chosen by whether the caller has
a participant row for the ride (of any status); the transactions of both
branches are collapsed into one state change.  In the participant branch
the source reads the ride through the row's required `ride` relation;
the `RideNotFound` answer there is unreachable under the store's
foreign-key integrity. -/
def cancelRide (w : World) (uid rid : Nat) (now : DateTime) :
    Except CancelError (World × CancelResult) :=
  match findParticipant w rid uid with
  | none =>
    match findRide w rid with
    | none => .error .RideNotFound
    | some ride =>
      if ride.driver_id ≠ uid then .error .NotRideOwner
      else
        match (bookedSorted w rid).head? with
        | some fb =>
          .ok ({ w with
                  cancellations := w.cancellations ++
                    [{ ride_id := rid, user_id := uid,
                       cancelled_at := now.getTime }],
                  users := updateUserPenalty w.users uid
                    (if diffHours ride now < 3 then 5 else 2),
                  rides := w.rides.map (fun r =>
                    if r.ride_id == rid then
                      { r with driver_id := fb.user_id,
                               status := RideStatus.open_ }
                    else r),
                  participants := w.participants.filter
                    (fun p => !(p.id == fb.id)) },
               .driver true)
        | none =>
          .ok ({ w with
                  cancellations := w.cancellations ++
                    [{ ride_id := rid, user_id := uid,
                       cancelled_at := now.getTime }],
                  users := updateUserPenalty w.users uid
                    (if diffHours ride now < 3 then 5 else 2),
                  rides := updateRideStatus w.rides rid RideStatus.cancelled },
               .driver false)
  | some rp =>
    match findRide w rid with
    | none => .error .RideNotFound
    | some ride =>
      .ok ({ w with
              participants := w.participants.map (fun p =>
                if p.id == rp.id then { p with status := PStatus.cancelled }
                else p),
              cancellations := w.cancellations ++
                [{ ride_id := rid, user_id := uid,
                   cancelled_at := now.getTime }],
              rides := if bookedOf (w.participants.map (fun p =>
                           if p.id == rp.id then
                             { p with status := PStatus.cancelled }
                           else p)) rid == 0
                       then updateRideStatus w.rides rid RideStatus.open_
                       else w.rides,
              users := updateUserPenalty w.users uid
                (if (if diffHours ride now < 3 then
                       max 0 ((jsRound (rp.share_fare * (1 / 4)) : ℚ))
                     else 0) > 0
                 then 5 else 2) },
           .participant (if diffHours ride now < 3 then
                           max 0 ((jsRound (rp.share_fare * (1 / 4)) : ℚ))
                         else 0))

/-- The request body of `POST /rides`; `vehicle_type` already carries the
`z.enum` constraint in its type. -/
structure RideCreateInput where
  start_location : String
  end_location : String
  start_date : DateTime
  start_time : DateTime
  total_fare : ℚ
  vehicle_type : VehicleType
  max_passengers : Int
deriving DecidableEq, Repr

/-- `rideCreateSchema`: locations nonempty, `total_fare` positive,
`max_passengers` an integer between 1 and 6. -/
def rideCreateValid (i : RideCreateInput) : Bool :=
  decide (1 ≤ i.start_location.length) && decide (1 ≤ i.end_location.length) &&
  decide (0 < i.total_fare) && decide (1 ≤ i.max_passengers) &&
  decide (i.max_passengers ≤ 6)

/-- `POST /rides`: validate, upsert the host's vehicle, create the ride.
The new ride's status is `open` (the schema default; modelled from the
spec, the Prisma schema file being outside the sources). -/
def createRide (w : World) (hostId : Nat) (i : RideCreateInput)
    (newVehicleId newRideId : Nat) : Except Unit (World × Ride) :=
  if rideCreateValid i then
    match w.vehicles.find? (fun v => v.user_id == hostId) with
    | some v =>
      .ok ({ w with
              rides := w.rides ++
                [{ ride_id := newRideId, driver_id := hostId,
                   vehicle_id := v.vehicle_id,
                   start_location := i.start_location,
                   end_location := i.end_location,
                   start_date := i.start_date, start_time := i.start_time,
                   total_fare := i.total_fare,
                   max_passengers := i.max_passengers,
                   status := RideStatus.open_ }],
              vehicles := w.vehicles.map (fun u : Vehicle =>
                if u.user_id == hostId then
                  { u with vehicle_type := i.vehicle_type }
                else u) },
           { ride_id := newRideId, driver_id := hostId,
             vehicle_id := v.vehicle_id,
             start_location := i.start_location,
             end_location := i.end_location,
             start_date := i.start_date, start_time := i.start_time,
             total_fare := i.total_fare, max_passengers := i.max_passengers,
             status := RideStatus.open_ })
    | none =>
      .ok ({ w with
              rides := w.rides ++
                [{ ride_id := newRideId, driver_id := hostId,
                   vehicle_id := newVehicleId,
                   start_location := i.start_location,
                   end_location := i.end_location,
                   start_date := i.start_date, start_time := i.start_time,
                   total_fare := i.total_fare,
                   max_passengers := i.max_passengers,
                   status := RideStatus.open_ }],
              vehicles := w.vehicles ++
                [{ vehicle_id := newVehicleId, user_id := hostId,
                   vehicle_type := i.vehicle_type }] },
           { ride_id := newRideId, driver_id := hostId,
             vehicle_id := newVehicleId,
             start_location := i.start_location,
             end_location := i.end_location,
             start_date := i.start_date, start_time := i.start_time,
             total_fare := i.total_fare, max_passengers := i.max_passengers,
             status := RideStatus.open_ })
  else .error ()

/-- Store well-formedness: primary keys are unique and `nextPid` is fresh. -/
def WF (w : World) : Prop :=
  (w.participants.map (fun p => p.id)).Nodup ∧
  (w.rides.map (fun r => r.ride_id)).Nodup ∧
  ∀ p ∈ w.participants, p.id < w.nextPid

/-- The capacity invariant: booked participants plus the host never
exceed `max_passengers`. -/
def capacityOK (w : World) : Prop :=
  ∀ r ∈ w.rides, (bookedCount w r.ride_id : Int) + 1 ≤ r.max_passengers

/-! ### List lemmas about keyed updates, deletes and counts -/

theorem find?_map_of_pred_inv {α : Type} (f : α → α) (q : α → Bool)
    (hf : ∀ x, q (f x) = q x) :
    ∀ l : List α, (l.map f).find? q = (l.find? q).map f := by
  intro l
  induction l with
  | nil => rfl
  | cons a t ih =>
    by_cases h : q a = true
    · rw [List.map_cons, List.find?_cons_of_pos _ (by rw [hf]; exact h),
        List.find?_cons_of_pos _ h, Option.map_some']
    · rw [List.map_cons, List.find?_cons_of_neg _ (by rw [hf]; exact h),
        List.find?_cons_of_neg _ h, ih]

theorem map_ite_id {α : Type} (key : α → Nat) (k : Nat) (g : α → α) :
    ∀ l : List α, (∀ p ∈ l, key p ≠ k) →
      l.map (fun p => if key p == k then g p else p) = l := by
  intro l
  induction l with
  | nil => intro _; rfl
  | cons a t ih =>
    intro h
    have ha : (key a == k) = false := by
      simpa using h a (List.mem_cons_self a t)
    rw [List.map_cons, ih (fun p hp => h p (List.mem_cons_of_mem a hp))]
    simp [ha]

/-- Counting after an update keyed on a `Nat` primary key: with unique
keys, updating the row `e` trades `e`'s contribution for that of `g e`. -/
theorem countP_map_ite {α : Type} (key : α → Nat) (g : α → α) (q : α → Bool)
    (e : α) :
    ∀ l : List α, (l.map key).Nodup → e ∈ l →
      (l.map (fun p => if key p == key e then g p else p)).countP q
          + (if q e then 1 else 0)
        = l.countP q + (if q (g e) then 1 else 0) := by
  intro l
  induction l with
  | nil => intro _ h; cases h
  | cons a t ih =>
    intro hnd he
    obtain ⟨ha, ht⟩ : key a ∉ t.map key ∧ (t.map key).Nodup := by
      simpa using hnd
    rcases List.mem_cons.mp he with rfl | he'
    · have hne : ∀ p ∈ t, key p ≠ key e :=
        fun p hp hk => ha (hk ▸ List.mem_map_of_mem key hp)
      rw [List.map_cons, map_ite_id key (key e) g t hne]
      by_cases h1 : q e = true <;> by_cases h2 : q (g e) = true <;>
        simp [List.countP_cons, h1, h2]
    · have hane : (key a == key e) = false := by
        have : key a ≠ key e :=
          fun hk => ha (hk ▸ List.mem_map_of_mem key he')
        simpa using this
      rw [List.map_cons]
      have hrec := ih ht he'
      simp only [hane, List.countP_cons]
      simp only [Bool.false_eq_true, if_false]
      omega

theorem countP_filter_le {α : Type} (l : List α) (q r : α → Bool) :
    (l.filter r).countP q ≤ l.countP q := by
  rw [List.countP_filter]
  exact List.countP_mono_left (fun a _ h => by
    simp only [Bool.and_eq_true] at h
    exact h.1)

/-- Pointwise bound: mapping a function that never turns `q` on cannot
increase the `q`-count. -/
theorem countP_map_le {α : Type} (l : List α) (f : α → α) (q : α → Bool)
    (hf : ∀ x, q (f x) = true → q x = true) :
    (l.map f).countP q ≤ l.countP q := by
  rw [List.countP_map]
  exact List.countP_mono_left (fun a ha h => hf a h)

theorem findRide_mem {w : World} {rid : Nat} {r : Ride}
    (h : findRide w rid = some r) : r ∈ w.rides ∧ r.ride_id = rid := by
  refine ⟨List.mem_of_find?_eq_some h, ?_⟩
  have := List.find?_some h
  simpa using this

theorem findParticipant_mem {w : World} {rid uid : Nat} {p : RideParticipant}
    (h : findParticipant w rid uid = some p) :
    p ∈ w.participants ∧ p.ride_id = rid ∧ p.user_id = uid := by
  refine ⟨List.mem_of_find?_eq_some h, ?_⟩
  have := List.find?_some h
  simpa using this

theorem findUser_mem {w : World} {uid : Nat} {u : User}
    (h : findUser w uid = some u) : u ∈ w.users ∧ u.user_id = uid := by
  refine ⟨List.mem_of_find?_eq_some h, ?_⟩
  have := List.find?_some h
  simpa using this

theorem bookedOf_eq_countP (l : List RideParticipant) (rid : Nat) :
    bookedOf l rid
      = l.countP (fun p => p.ride_id == rid && p.status == PStatus.booked) :=
  (List.countP_eq_length_filter _ _).symm

/-! ### Characterizations of the operations -/

/-- Everything a successful join implies, read off the handler's branches. -/
theorem joinRide_ok {w : World} {uid rid : Nat} {now : DateTime} {w' : World}
    {p : RideParticipant} (h : joinRide w uid rid now = .ok (w', p)) :
    ∃ ride, findRide w rid = some ride ∧ ride.status = RideStatus.open_ ∧
      ride.driver_id ≠ uid ∧ hasActiveBooking w uid now = false ∧
      ((bookedCount w rid : Int) + 1 < ride.max_passengers) ∧
      p.share_fare = ride.total_fare / ((bookedCount w rid : ℚ) + 2) ∧
      ((findParticipant w rid uid = none ∧
          p = { id := w.nextPid, ride_id := rid, user_id := uid,
                status := PStatus.booked,
                share_fare := ride.total_fare / ((bookedCount w rid : ℚ) + 2),
                booking_time := now.getTime } ∧
          w' = { w with participants := w.participants ++ [p],
                        nextPid := w.nextPid + 1 }) ∨
       (∃ e, findParticipant w rid uid = some e ∧ e.status = PStatus.cancelled ∧
          p = { e with status := PStatus.booked,
                       share_fare := ride.total_fare /
                         ((bookedCount w rid : ℚ) + 2) } ∧
          w' = { w with participants := w.participants.map (fun q =>
                   if q.id == e.id then
                     { q with status := PStatus.booked,
                              share_fare := ride.total_fare /
                                ((bookedCount w rid : ℚ) + 2) }
                   else q) })) := by
  unfold joinRide at h
  cases hr : findRide w rid with
  | none => rw [hr] at h; simp at h
  | some ride =>
    rw [hr] at h
    dsimp only at h
    refine ⟨ride, rfl, ?_⟩
    split at h
    · simp at h
    rename_i hst
    have hst' : ride.status = RideStatus.open_ := not_not.mp hst
    split at h
    · simp at h
    rename_i hdr
    have hdr' : ride.driver_id ≠ uid := by simpa using hdr
    split at h
    · simp at h
    rename_i hab
    have hab' : hasActiveBooking w uid now = false := by simpa using hab
    split at h
    · simp at h
    rename_i hcap
    have hcap' : (bookedCount w rid : Int) + 1 < ride.max_passengers :=
      lt_of_not_ge hcap
    refine ⟨hst', hdr', hab', hcap', ?_⟩
    split at h
    · rename_i e heq
      split at h
      · simp at h
      rename_i hstat
      have hstat' : e.status = PStatus.cancelled := by
        cases hs : e.status
        · rw [hs] at hstat; simp at hstat
        · rfl
      simp only [Except.ok.injEq, Prod.mk.injEq] at h
      obtain ⟨hw, hp⟩ := h
      subst hw
      subst hp
      exact ⟨rfl, Or.inr ⟨e, heq, hstat', rfl, rfl⟩⟩
    · rename_i heq
      simp only [Except.ok.injEq, Prod.mk.injEq] at h
      obtain ⟨hw, hp⟩ := h
      subst hw
      subst hp
      exact ⟨rfl, Or.inl ⟨heq, rfl, rfl⟩⟩

/-- The participant branch of `POST /rides/cancel`, as one equation. -/
theorem cancelRide_part_eq (w : World) (uid rid : Nat) (now : DateTime)
    (rp : RideParticipant) (ride : Ride)
    (hp : findParticipant w rid uid = some rp)
    (hr : findRide w rid = some ride) :
    cancelRide w uid rid now =
      .ok ({ w with
              participants := w.participants.map (fun p =>
                if p.id == rp.id then { p with status := PStatus.cancelled }
                else p),
              cancellations := w.cancellations ++
                [{ ride_id := rid, user_id := uid,
                   cancelled_at := now.getTime }],
              rides := if bookedOf (w.participants.map (fun p =>
                           if p.id == rp.id then
                             { p with status := PStatus.cancelled }
                           else p)) rid == 0
                       then updateRideStatus w.rides rid RideStatus.open_
                       else w.rides,
              users := updateUserPenalty w.users uid
                (if (if diffHours ride now < 3 then
                       max 0 ((jsRound (rp.share_fare * (1 / 4)) : ℚ))
                     else 0) > 0
                 then 5 else 2) },
           .participant (if diffHours ride now < 3 then
                           max 0 ((jsRound (rp.share_fare * (1 / 4)) : ℚ))
                         else 0)) := by
  unfold cancelRide
  rw [hp, hr]

/-- The driver branch of `POST /rides/cancel` when a booked participant
exists: succession, as one equation. -/
theorem cancelRide_driver_transfer_eq (w : World) (uid rid : Nat)
    (now : DateTime) (ride : Ride) (fb : RideParticipant)
    (hp : findParticipant w rid uid = none)
    (hr : findRide w rid = some ride)
    (hd : ride.driver_id = uid)
    (hfb : (bookedSorted w rid).head? = some fb) :
    cancelRide w uid rid now =
      .ok ({ w with
              cancellations := w.cancellations ++
                [{ ride_id := rid, user_id := uid,
                   cancelled_at := now.getTime }],
              users := updateUserPenalty w.users uid
                (if diffHours ride now < 3 then 5 else 2),
              rides := w.rides.map (fun r =>
                if r.ride_id == rid then
                  { r with driver_id := fb.user_id,
                           status := RideStatus.open_ }
                else r),
              participants := w.participants.filter
                (fun p => !(p.id == fb.id)) },
           .driver true) := by
  unfold cancelRide
  rw [hp]
  dsimp only
  rw [hr]
  dsimp only
  rw [if_neg (by simp [hd]), hfb]

/-- The driver branch of `POST /rides/cancel` with no booked participant:
the ride is cancelled outright. -/
theorem cancelRide_driver_cancel_eq (w : World) (uid rid : Nat)
    (now : DateTime) (ride : Ride)
    (hp : findParticipant w rid uid = none)
    (hr : findRide w rid = some ride)
    (hd : ride.driver_id = uid)
    (hfb : (bookedSorted w rid).head? = none) :
    cancelRide w uid rid now =
      .ok ({ w with
              cancellations := w.cancellations ++
                [{ ride_id := rid, user_id := uid,
                   cancelled_at := now.getTime }],
              users := updateUserPenalty w.users uid
                (if diffHours ride now < 3 then 5 else 2),
              rides := updateRideStatus w.rides rid RideStatus.cancelled },
           .driver false) := by
  unfold cancelRide
  rw [hp]
  dsimp only
  rw [hr]
  dsimp only
  rw [if_neg (by simp [hd]), hfb]

/-- Everything a successful create implies. -/
theorem createRide_ok {w : World} {hostId : Nat} {i : RideCreateInput}
    {nv nr : Nat} {w' : World} {r : Ride}
    (h : createRide w hostId i nv nr = .ok (w', r)) :
    rideCreateValid i = true ∧
    w'.participants = w.participants ∧
    w'.rides = w.rides ++ [r] ∧
    r.ride_id = nr ∧ r.max_passengers = i.max_passengers ∧
    r.status = RideStatus.open_ := by
  unfold createRide at h
  split at h
  · rename_i hv
    split at h <;>
    · simp only [Except.ok.injEq, Prod.mk.injEq] at h
      obtain ⟨hw, hrr⟩ := h
      subst hw
      subst hrr
      exact ⟨hv, rfl, rfl, rfl, rfl, rfl⟩
  · simp at h

/-- Everything a successful start implies. -/
theorem startRide_ok {w : World} {uid rid : Nat} {now : DateTime} {w' : World}
    (h : startRide w uid rid now = .ok w') :
    ∃ ride, findRide w rid = some ride ∧ ride.driver_id = uid ∧
      ride.status = RideStatus.open_ ∧
      (scheduledStart ride).getTime ≤ now.getTime ∧
      w' = { w with rides := updateRideStatus w.rides rid RideStatus.active } := by
  unfold startRide at h
  cases hr : findRide w rid with
  | none => rw [hr] at h; simp at h
  | some ride =>
    rw [hr] at h
    dsimp only at h
    split at h
    · simp at h
    rename_i h1
    split at h
    · simp at h
    rename_i h2
    split at h
    · simp at h
    rename_i h3
    simp only [Except.ok.injEq] at h
    subst h
    exact ⟨ride, rfl, not_not.mp h1, not_not.mp h2, le_of_not_lt h3, rfl⟩

/-- Everything a successful complete implies. -/
theorem completeRide_ok {w : World} {uid rid : Nat} {w' : World}
    (h : completeRide w uid rid = .ok w') :
    ∃ ride, findRide w rid = some ride ∧ ride.driver_id = uid ∧
      ride.status = RideStatus.active ∧
      w' = { w with rides := updateRideStatus w.rides rid RideStatus.completed } := by
  unfold completeRide at h
  cases hr : findRide w rid with
  | none => rw [hr] at h; simp at h
  | some ride =>
    rw [hr] at h
    dsimp only at h
    split at h
    · simp at h
    rename_i h1
    split at h
    · simp at h
    rename_i h2
    simp only [Except.ok.injEq] at h
    subst h
    exact ⟨ride, rfl, not_not.mp h1, not_not.mp h2, rfl⟩

/-! ### The capacity invariant (booked + host ≤ max_passengers) -/

theorem bookedOf_append (l1 l2 : List RideParticipant) (x : Nat) :
    bookedOf (l1 ++ l2) x = bookedOf l1 x + bookedOf l2 x := by
  simp [bookedOf, List.filter_append]

theorem bookedOf_single (p : RideParticipant) (x : Nat) :
    bookedOf [p] x =
      if p.ride_id == x && p.status == PStatus.booked then 1 else 0 := by
  by_cases h : (p.ride_id == x && p.status == PStatus.booked) = true <;>
    simp [bookedOf, List.filter_cons, h]

/-- Rebooking a cancelled row `e` raises the booked count of `e`'s ride
by one and leaves other rides' counts unchanged. -/
theorem bookedOf_flip_booked (l : List RideParticipant) (e : RideParticipant)
    (s : ℚ) (hnd : (l.map (fun p => p.id)).Nodup) (he : e ∈ l)
    (hst : e.status = PStatus.cancelled) (x : Nat) :
    bookedOf (l.map (fun q =>
        if q.id == e.id then
          { q with status := PStatus.booked, share_fare := s }
        else q)) x
      = bookedOf l x + (if e.ride_id == x then 1 else 0) := by
  rw [bookedOf_eq_countP, bookedOf_eq_countP]
  have hc := countP_map_ite (fun q : RideParticipant => q.id)
      (fun q : RideParticipant =>
        { q with status := PStatus.booked, share_fare := s })
      (fun q : RideParticipant =>
        q.ride_id == x && q.status == PStatus.booked) e l hnd he
  by_cases hex : (e.ride_id == x) = true <;>
    simp [hex, hst] at hc ⊢ <;> omega

/-- Cancelling the row `e` removes exactly `e`'s contribution from every
booked count. -/
theorem bookedOf_flip_cancelled (l : List RideParticipant)
    (e : RideParticipant) (hnd : (l.map (fun p => p.id)).Nodup) (he : e ∈ l)
    (x : Nat) :
    bookedOf (l.map (fun q =>
        if q.id == e.id then { q with status := PStatus.cancelled } else q)) x
      + (if e.ride_id == x && e.status == PStatus.booked then 1 else 0)
      = bookedOf l x := by
  rw [bookedOf_eq_countP, bookedOf_eq_countP]
  have hc := countP_map_ite (fun q : RideParticipant => q.id)
      (fun q : RideParticipant => { q with status := PStatus.cancelled })
      (fun q : RideParticipant =>
        q.ride_id == x && q.status == PStatus.booked) e l hnd he
  by_cases hex : (e.ride_id == x) = true <;>
    by_cases hbs : e.status = PStatus.booked <;>
    simp [hex, hbs] at hc ⊢ <;> omega

theorem findRide_eq_of_mem {w : World} {rid : Nat} {ride r : Ride}
    (hnd : (w.rides.map (fun r => r.ride_id)).Nodup)
    (hfind : findRide w rid = some ride)
    (hm : r ∈ w.rides) (hid : r.ride_id = rid) : r = ride := by
  obtain ⟨hmem, hid2⟩ := findRide_mem hfind
  exact List.inj_on_of_nodup_map hnd hm hmem (by rw [hid, hid2])

/-- Transfer of the capacity invariant to a state whose rides keep their
ids and capacities and whose booked counts did not grow. -/
theorem capacityOK_mk (w w' : World)
    (hr : ∀ r ∈ w'.rides, ∃ r0 ∈ w.rides,
        r.ride_id = r0.ride_id ∧ r.max_passengers = r0.max_passengers)
    (hp : ∀ x : Nat, bookedOf w'.participants x ≤ bookedOf w.participants x)
    (h : capacityOK w) : capacityOK w' := by
  intro r hrm
  obtain ⟨r0, hr0, hids, hmaxs⟩ := hr r hrm
  have h0 := h r0 hr0
  have hple := hp r0.ride_id
  unfold bookedCount at h0 ⊢
  rw [hids, hmaxs]
  omega

theorem updateRideStatus_shape (l : List Ride) (rid : Nat) (s : RideStatus) :
    ∀ r ∈ updateRideStatus l rid s, ∃ r0 ∈ l,
      r.ride_id = r0.ride_id ∧ r.max_passengers = r0.max_passengers := by
  intro r hr
  obtain ⟨r0, hr0, rfl⟩ := List.mem_map.mp hr
  refine ⟨r0, hr0, ?_, ?_⟩ <;> by_cases h : (r0.ride_id == rid) = true <;>
    simp [h]

theorem capacity_startRide (w : World) (uid rid : Nat) (now : DateTime)
    (w' : World) (hcap : capacityOK w) (h : startRide w uid rid now = .ok w') :
    capacityOK w' := by
  obtain ⟨ride, _, _, _, _, rfl⟩ := startRide_ok h
  exact capacityOK_mk w _ (updateRideStatus_shape w.rides rid _)
    (fun x => le_refl _) hcap

theorem capacity_completeRide (w : World) (uid rid : Nat)
    (w' : World) (hcap : capacityOK w) (h : completeRide w uid rid = .ok w') :
    capacityOK w' := by
  obtain ⟨ride, _, _, _, rfl⟩ := completeRide_ok h
  exact capacityOK_mk w _ (updateRideStatus_shape w.rides rid _)
    (fun x => le_refl _) hcap

theorem capacity_createRide (w : World) (hostId : Nat) (i : RideCreateInput)
    (nv nr : Nat) (w' : World) (r : Ride) (hcap : capacityOK w)
    (hfresh : ∀ p ∈ w.participants, p.ride_id ≠ nr)
    (h : createRide w hostId i nv nr = .ok (w', r)) : capacityOK w' := by
  obtain ⟨hv, hparts, hrides, hrid, hmax, _⟩ := createRide_ok h
  intro r2 hr2
  rw [hrides] at hr2
  unfold bookedCount
  rw [hparts]
  rcases List.mem_append.mp hr2 with h2 | h2
  · exact hcap r2 h2
  · have hr2r : r2 = r := by simpa using h2
    subst hr2r
    have h0 : bookedOf w.participants r2.ride_id = 0 := by
      rw [bookedOf_eq_countP]
      refine List.countP_eq_zero.mpr (fun p hp => ?_)
      have := hfresh p hp
      simp [hrid, this]
    rw [h0, hmax]
    have h1 : 1 ≤ i.max_passengers := by
      unfold rideCreateValid at hv
      simp only [Bool.and_eq_true, decide_eq_true_eq] at hv
      exact hv.1.2
    omega

theorem capacity_joinRide (w : World) (uid rid : Nat) (now : DateTime)
    (w' : World) (p : RideParticipant) (hwf : WF w) (hcap : capacityOK w)
    (h : joinRide w uid rid now = .ok (w', p)) : capacityOK w' := by
  obtain ⟨ride, hfind, _, _, _, hlt, _, hbranch⟩ := joinRide_ok h
  obtain ⟨hnodupP, hnodupR, _⟩ := hwf
  have key : ∀ x : Nat, bookedOf w'.participants x ≤
      bookedOf w.participants x + (if rid == x then 1 else 0) ∧
      (w'.rides = w.rides) := by
    rcases hbranch with ⟨_, hp2, rfl⟩ | ⟨e, hfp, hst, hp2, rfl⟩
    · refine fun x => ⟨?_, rfl⟩
      rw [bookedOf_append, bookedOf_single]
      subst hp2
      by_cases hx : (rid == x) = true <;> simp [hx]
    · refine fun x => ⟨?_, rfl⟩
      obtain ⟨hmem, hrid2, huid2⟩ := findParticipant_mem hfp
      have hc := bookedOf_flip_booked w.participants e
        (ride.total_fare / ((bookedCount w rid : ℚ) + 2)) hnodupP hmem hst x
      rw [hc, hrid2]
  intro r2 hr2
  rw [(key 0).2] at hr2
  have hb := (key r2.ride_id).1
  unfold bookedCount
  by_cases hx : r2.ride_id = rid
  · have : r2 = ride := findRide_eq_of_mem hnodupR hfind hr2 hx
    subst this
    have hbeq : (rid == r2.ride_id) = true := by simp [hx]
    rw [hbeq] at hb
    simp only [if_true] at hb
    have := hlt
    unfold bookedCount at this
    rw [hx] at hb ⊢
    omega
  · have hbeq : (rid == r2.ride_id) = false := by simp [Ne.symm hx]
    rw [hbeq] at hb
    simp only [Bool.false_eq_true, if_false] at hb
    have h0 := hcap r2 hr2
    unfold bookedCount at h0
    omega

theorem capacity_cancelRide (w : World) (uid rid : Nat) (now : DateTime)
    (w' : World) (res : CancelResult) (hcap : capacityOK w)
    (h : cancelRide w uid rid now = .ok (w', res)) : capacityOK w' := by
  unfold cancelRide at h
  cases hp : findParticipant w rid uid with
  | some rp =>
    rw [hp] at h
    dsimp only at h
    cases hr : findRide w rid with
    | none => rw [hr] at h; simp at h
    | some ride =>
      rw [hr] at h
      dsimp only at h
      simp only [Except.ok.injEq, Prod.mk.injEq] at h
      obtain ⟨hw, _⟩ := h
      subst hw
      refine capacityOK_mk w _ ?_ ?_ hcap
      · intro r2 hr2
        simp only at hr2
        split at hr2
        · exact updateRideStatus_shape w.rides rid _ r2 hr2
        · exact ⟨r2, hr2, rfl, rfl⟩
      · intro x
        simp only [bookedOf_eq_countP]
        refine countP_map_le _ _ _ (fun q hq => ?_)
        by_cases hid : (q.id == rp.id) = true
        · simp only [hid, if_true] at hq
          simp at hq
        · simp only [hid, Bool.false_eq_true, if_false] at hq
          exact hq
  | none =>
    rw [hp] at h
    dsimp only at h
    cases hr : findRide w rid with
    | none => rw [hr] at h; simp at h
    | some ride =>
      rw [hr] at h
      dsimp only at h
      split at h
      · simp at h
      split at h
      · rename_i fb hfb
        simp only [Except.ok.injEq, Prod.mk.injEq] at h
        obtain ⟨hw, _⟩ := h
        subst hw
        refine capacityOK_mk w _ ?_ ?_ hcap
        · intro r2 hr2
          simp only at hr2
          obtain ⟨r0, hr0, rfl⟩ := List.mem_map.mp hr2
          refine ⟨r0, hr0, ?_, ?_⟩ <;>
            by_cases hb : (r0.ride_id == rid) = true <;> simp [hb]
        · intro x
          simp only [bookedOf_eq_countP]
          exact countP_filter_le _ _ _
      · rename_i hfb
        simp only [Except.ok.injEq, Prod.mk.injEq] at h
        obtain ⟨hw, _⟩ := h
        subst hw
        exact capacityOK_mk w _ (updateRideStatus_shape w.rides rid _)
          (fun x => le_refl _) hcap

/-! ### Lookups after the store updates -/

theorem find?_updateRideStatus (l : List Ride) (rid : Nat) (s : RideStatus) :
    (updateRideStatus l rid s).find? (fun r => r.ride_id == rid)
      = (l.find? (fun r => r.ride_id == rid)).map
          (fun r => if r.ride_id == rid then { r with status := s } else r) := by
  unfold updateRideStatus
  exact find?_map_of_pred_inv _ _
    (fun r => by by_cases h : (r.ride_id == rid) = true <;> simp [h]) l

theorem find?_updateUserPenalty (l : List User) (uid : Nat) (d : ℚ) :
    (updateUserPenalty l uid d).find? (fun u => u.user_id == uid)
      = (l.find? (fun u => u.user_id == uid)).map (fun u =>
          if u.user_id == uid then
            { u with cancellation_count := u.cancellation_count + 1,
                     credibility_score := u.credibility_score - d }
          else u) := by
  unfold updateUserPenalty
  exact find?_map_of_pred_inv _ _
    (fun u => by by_cases h : (u.user_id == uid) = true <;> simp [h]) l

theorem find?_flip_cancelled (l : List RideParticipant) (pid : Nat)
    (rid uid : Nat) :
    (l.map (fun p =>
        if p.id == pid then { p with status := PStatus.cancelled } else p)).find?
        (fun p => p.ride_id == rid && p.user_id == uid)
      = (l.find? (fun p => p.ride_id == rid && p.user_id == uid)).map (fun p =>
          if p.id == pid then { p with status := PStatus.cancelled } else p) :=
  find?_map_of_pred_inv _ _
    (fun p => by by_cases h : (p.id == pid) = true <;> simp [h]) l

/-- The head of the driver branch's ordered booked-participant list is a
booked participant of the ride with minimal `booking_time`. -/
theorem bookedSorted_head_min (w : World) (rid : Nat) (fb : RideParticipant)
    (hfb : (bookedSorted w rid).head? = some fb) :
    fb ∈ w.participants ∧ fb.ride_id = rid ∧ fb.status = PStatus.booked ∧
    ∀ q ∈ w.participants, q.ride_id = rid → q.status = PStatus.booked →
      fb.booking_time ≤ q.booking_time := by
  have hperm : List.Perm (bookedSorted w rid) (w.participants.filter
      (fun p => p.ride_id == rid && p.status == PStatus.booked)) :=
    List.perm_insertionSort byBookingTime _
  have hsorted : List.Sorted byBookingTime (bookedSorted w rid) :=
    List.sorted_insertionSort byBookingTime _
  cases hbs : bookedSorted w rid with
  | nil => rw [hbs] at hfb; simp at hfb
  | cons a t =>
    rw [hbs] at hfb
    simp only [List.head?_cons, Option.some.injEq] at hfb
    subst hfb
    rw [hbs] at hperm hsorted
    have hmem : a ∈ w.participants.filter
        (fun p => p.ride_id == rid && p.status == PStatus.booked) :=
      hperm.subset (List.mem_cons_self a t)
    have hpred := List.of_mem_filter hmem
    simp only [Bool.and_eq_true, beq_iff_eq] at hpred
    refine ⟨List.mem_of_mem_filter hmem, hpred.1, hpred.2, ?_⟩
    intro q hq hqr hqs
    have hqf : q ∈ w.participants.filter
        (fun p => p.ride_id == rid && p.status == PStatus.booked) :=
      List.mem_filter.mpr ⟨hq, by simp [hqr, hqs]⟩
    have hqs2 : q ∈ a :: t := hperm.mem_iff.mpr hqf
    rcases List.mem_cons.mp hqs2 with rfl | hqt
    · exact le_refl _
    · exact List.rel_of_sorted_cons hsorted q hqt

/-! ### Claim theorems -/

/-- C4: for every ride, booked participants plus one for the host never
exceed `max_passengers`: the invariant holds for a freshly created ride
and is preserved by join, cancel, start and complete (join rejects with
`RideFull` before the headcount could reach `max_passengers`;
cancellations only reduce the booked count). -/
theorem capacity_invariant_preserved :
    (∀ w hostId i nv nr w' r, capacityOK w →
        (∀ p ∈ w.participants, p.ride_id ≠ nr) →
        createRide w hostId i nv nr = .ok (w', r) → capacityOK w') ∧
    (∀ w uid rid now w' p, WF w → capacityOK w →
        joinRide w uid rid now = .ok (w', p) → capacityOK w') ∧
    (∀ w uid rid now w' res, capacityOK w →
        cancelRide w uid rid now = .ok (w', res) → capacityOK w') ∧
    (∀ w uid rid now w', capacityOK w →
        startRide w uid rid now = .ok w' → capacityOK w') ∧
    (∀ w uid rid w', capacityOK w →
        completeRide w uid rid = .ok w' → capacityOK w') :=
  ⟨fun w hostId i nv nr w' r hc hf h =>
      capacity_createRide w hostId i nv nr w' r hc hf h,
   fun w uid rid now w' p hwf hc h =>
      capacity_joinRide w uid rid now w' p hwf hc h,
   fun w uid rid now w' res hc h =>
      capacity_cancelRide w uid rid now w' res hc h,
   fun w uid rid now w' hc h => capacity_startRide w uid rid now w' hc h,
   fun w uid rid w' hc h => capacity_completeRide w uid rid w' hc h⟩

def rideS : Ride :=
  { ride_id := 1, driver_id := 1, vehicle_id := 1,
    start_location := "a", end_location := "b",
    start_date := ⟨10, 0, 0, 0, 0⟩, start_time := ⟨0, 8, 0, 0, 0⟩,
    total_fare := 100, max_passengers := 2, status := RideStatus.open_ }

def wS : World :=
  { rides := [rideS], participants := [], users := [], vehicles := [],
    cancellations := [], nextPid := 0 }

def tS : DateTime := ⟨10, 9, 0, 0, 0⟩

theorem capacity_invariant_preserved_witness :
    capacityOK { wS with rides := [{ rideS with status := RideStatus.active }] } :=
  capacity_invariant_preserved.2.2.2.1 wS 1 1 tS
    { wS with rides := [{ rideS with status := RideStatus.active }] }
    (by unfold capacityOK; decide) rfl

/-- C2: a driver cancellation (no participant row for the caller, caller
is `ride.driver_id`) promotes the earliest-booked participant when one
exists — new `driver_id`, its row deleted, ride reopened,
`transferred = true` — and otherwise cancels the ride with
`transferred = false`. -/
theorem driver_cancel_succession (w : World) (uid rid : Nat) (now : DateTime)
    (ride : Ride)
    (hnp : findParticipant w rid uid = none)
    (hr : findRide w rid = some ride)
    (hd : ride.driver_id = uid) :
    (∀ fb, (bookedSorted w rid).head? = some fb →
      ∃ w', cancelRide w uid rid now = .ok (w', .driver true) ∧
        findRide w' rid = some { ride with driver_id := fb.user_id,
                                           status := RideStatus.open_ } ∧
        fb.ride_id = rid ∧ fb.status = PStatus.booked ∧
        (∀ q ∈ w.participants, q.ride_id = rid → q.status = PStatus.booked →
          fb.booking_time ≤ q.booking_time) ∧
        (∀ q ∈ w'.participants, q.id ≠ fb.id) ∧
        (∀ q ∈ w.participants, q.id ≠ fb.id → q ∈ w'.participants)) ∧
    (bookedCount w rid = 0 →
      ∃ w', cancelRide w uid rid now = .ok (w', .driver false) ∧
        findRide w' rid = some { ride with status := RideStatus.cancelled }) := by
  have hrid : ride.ride_id = rid := (findRide_mem hr).2
  constructor
  · intro fb hfb
    obtain ⟨hfmem, hfrid, hfst, hfmin⟩ := bookedSorted_head_min w rid fb hfb
    refine ⟨_, cancelRide_driver_transfer_eq w uid rid now ride fb hnp hr hd hfb,
      ?_, hfrid, hfst, hfmin, ?_, ?_⟩
    · show (w.rides.map (fun r =>
          if r.ride_id == rid then
            { r with driver_id := fb.user_id, status := RideStatus.open_ }
          else r)).find? (fun r => r.ride_id == rid) = _
      rw [find?_map_of_pred_inv _ _
        (fun r => by by_cases h : (r.ride_id == rid) = true <;> simp [h])]
      unfold findRide at hr
      rw [hr, Option.map_some']
      simp [hrid]
    · intro q hq
      have := List.of_mem_filter hq
      simpa using this
    · intro q hq hne
      exact List.mem_filter.mpr ⟨hq, by simpa using hne⟩
  · intro h0
    have hnil : bookedSorted w rid = [] := by
      have hlen := (List.perm_insertionSort byBookingTime
        (w.participants.filter
          (fun p => p.ride_id == rid && p.status == PStatus.booked))).length_eq
      have : (bookedSorted w rid).length = 0 := by
        unfold bookedSorted
        rw [hlen]
        exact h0
      exact List.eq_nil_of_length_eq_zero this
    have hfb : (bookedSorted w rid).head? = none := by rw [hnil]; rfl
    refine ⟨_, cancelRide_driver_cancel_eq w uid rid now ride hnp hr hd hfb, ?_⟩
    show (updateRideStatus w.rides rid RideStatus.cancelled).find?
        (fun r => r.ride_id == rid) = _
    rw [find?_updateRideStatus]
    unfold findRide at hr
    rw [hr, Option.map_some']
    simp [hrid]

def p1C2 : RideParticipant :=
  { id := 1, ride_id := 1, user_id := 2, status := PStatus.booked,
    share_fare := 50, booking_time := 5 }

def p2C2 : RideParticipant :=
  { id := 2, ride_id := 1, user_id := 3, status := PStatus.booked,
    share_fare := 50, booking_time := 3 }

def rideC2 : Ride :=
  { ride_id := 1, driver_id := 7, vehicle_id := 1,
    start_location := "a", end_location := "b",
    start_date := ⟨10, 0, 0, 0, 0⟩, start_time := ⟨0, 8, 0, 0, 0⟩,
    total_fare := 150, max_passengers := 4, status := RideStatus.open_ }

def wC2 : World :=
  { rides := [rideC2], participants := [p1C2, p2C2],
    users := [⟨7, 100, 0⟩, ⟨2, 100, 0⟩, ⟨3, 100, 0⟩], vehicles := [],
    cancellations := [], nextPid := 3 }

def tC2 : DateTime := ⟨10, 6, 0, 0, 0⟩

theorem driver_cancel_succession_witness :
    ∃ w', cancelRide wC2 7 1 tC2 = .ok (w', .driver true) ∧
      findRide w' 1 = some { rideC2 with driver_id := p2C2.user_id,
                                         status := RideStatus.open_ } ∧
      p2C2.ride_id = 1 ∧ p2C2.status = PStatus.booked ∧
      (∀ q ∈ wC2.participants, q.ride_id = 1 → q.status = PStatus.booked →
        p2C2.booking_time ≤ q.booking_time) ∧
      (∀ q ∈ w'.participants, q.id ≠ p2C2.id) ∧
      (∀ q ∈ wC2.participants, q.id ≠ p2C2.id → q ∈ w'.participants) :=
  (driver_cancel_succession wC2 7 1 tC2 rideC2 rfl rfl rfl).1 p2C2 rfl

/-- C9: when the sole booked participant of a ride cancels, the booked
count drops to zero and the same atomic step reopens the ride, flips the
participant row to `cancelled` and appends the `RideCancellation` row. -/
theorem last_participant_cancel_reopens (w : World) (uid rid : Nat)
    (now : DateTime) (ride : Ride) (rp : RideParticipant)
    (hwf : WF w)
    (hp : findParticipant w rid uid = some rp)
    (hr : findRide w rid = some ride)
    (hone : w.participants.filter
        (fun p => p.ride_id == rid && p.status == PStatus.booked) = [rp]) :
    ∃ w' pen, cancelRide w uid rid now = .ok (w', .participant pen) ∧
      bookedCount w' rid = 0 ∧
      findRide w' rid = some { ride with status := RideStatus.open_ } ∧
      findParticipant w' rid uid =
        some { rp with status := PStatus.cancelled } ∧
      w'.cancellations = w.cancellations ++
        [{ ride_id := rid, user_id := uid, cancelled_at := now.getTime }] := by
  obtain ⟨hnodupP, _, _⟩ := hwf
  obtain ⟨hmem, hprid, hpuid⟩ := findParticipant_mem hp
  have hrid : ride.ride_id = rid := (findRide_mem hr).2
  have hcount1 : bookedOf w.participants rid = 1 := by
    unfold bookedOf
    rw [hone]
    rfl
  have hrpb : rp.status = PStatus.booked := by
    have hm : rp ∈ w.participants.filter
        (fun p => p.ride_id == rid && p.status == PStatus.booked) := by
      rw [hone]
      exact List.mem_cons_self rp []
    have := List.of_mem_filter hm
    simp only [Bool.and_eq_true, beq_iff_eq] at this
    exact this.2
  have hflip := bookedOf_flip_cancelled w.participants rp hnodupP hmem rid
  rw [hcount1] at hflip
  simp only [hprid, hrpb, beq_self_eq_true, Bool.and_self, if_true] at hflip
  have hc0 : bookedOf (w.participants.map (fun q =>
      if q.id == rp.id then { q with status := PStatus.cancelled } else q))
      rid = 0 := by omega
  refine ⟨_, _, cancelRide_part_eq w uid rid now rp ride hp hr, ?_, ?_, ?_, rfl⟩
  · exact hc0
  · show (if bookedOf (w.participants.map (fun p =>
          if p.id == rp.id then { p with status := PStatus.cancelled } else p))
          rid == 0
        then updateRideStatus w.rides rid RideStatus.open_
        else w.rides).find? (fun r => r.ride_id == rid) = _
    rw [hc0]
    simp only [beq_self_eq_true, if_true]
    rw [find?_updateRideStatus]
    unfold findRide at hr
    rw [hr, Option.map_some']
    simp [hrid]
  · show (w.participants.map (fun p =>
        if p.id == rp.id then { p with status := PStatus.cancelled }
        else p)).find? (fun p => p.ride_id == rid && p.user_id == uid) = _
    rw [find?_flip_cancelled]
    unfold findParticipant at hp
    rw [hp, Option.map_some']
    simp

/-- C10: cancelling an already-cancelled participation is accepted again:
a new audit row is appended, `cancellation_count` is incremented and
`credibility_score` is decremented (by 5 or by 2) on every repeated call. -/
theorem cancel_not_idempotent (w : World) (uid rid : Nat) (now : DateTime)
    (ride : Ride) (rp : RideParticipant) (u : User)
    (hp : findParticipant w rid uid = some rp)
    (_hcanc : rp.status = PStatus.cancelled)
    (hr : findRide w rid = some ride)
    (hu : findUser w uid = some u) :
    ∃ w' pen, cancelRide w uid rid now = .ok (w', .participant pen) ∧
      w'.cancellations = w.cancellations ++
        [{ ride_id := rid, user_id := uid, cancelled_at := now.getTime }] ∧
      ∃ d : ℚ, (d = 5 ∨ d = 2) ∧
        findUser w' uid = some
          { u with cancellation_count := u.cancellation_count + 1,
                   credibility_score := u.credibility_score - d } := by
  have huid : u.user_id = uid := (findUser_mem hu).2
  refine ⟨_, _, cancelRide_part_eq w uid rid now rp ride hp hr, rfl, ?_⟩
  refine ⟨if (if diffHours ride now < 3 then
      max 0 ((jsRound (rp.share_fare * (1 / 4)) : ℚ)) else 0) > 0
    then (5 : ℚ) else 2, ?_, ?_⟩
  · by_cases hb : (if diffHours ride now < 3 then
        max 0 ((jsRound (rp.share_fare * (1 / 4)) : ℚ)) else 0) > 0
    · rw [if_pos hb]
      exact Or.inl rfl
    · rw [if_neg hb]
      exact Or.inr rfl
  · show (updateUserPenalty w.users uid _).find? (fun x => x.user_id == uid) = _
    rw [find?_updateUserPenalty]
    unfold findUser at hu
    rw [hu, Option.map_some']
    simp [huid]

/-- C1 (amended): a participant cancellation always increments
`cancellation_count` by one, and decrements `credibility_score` by 5
exactly when `diffHours < 3` *and* the monetary penalty
`round(share_fare * 0.25)` is positive (`share_fare ≥ 2`); in every
other case — including `diffHours < 3` with a small share — the
decrement is 2. -/
theorem participant_cancel_penalty (w : World) (uid rid : Nat)
    (now : DateTime) (ride : Ride) (rp : RideParticipant) (u : User)
    (hp : findParticipant w rid uid = some rp)
    (hr : findRide w rid = some ride)
    (hu : findUser w uid = some u) :
    ∃ w' pen, cancelRide w uid rid now = .ok (w', .participant pen) ∧
      findUser w' uid = some
        { u with cancellation_count := u.cancellation_count + 1,
                 credibility_score := u.credibility_score -
                   (if diffHours ride now < 3 ∧
                       1 ≤ jsRound (rp.share_fare * (1 / 4))
                    then 5 else 2) } := by
  have huid : u.user_id = uid := (findUser_mem hu).2
  have hdec : (if (if diffHours ride now < 3 then
        max 0 ((jsRound (rp.share_fare * (1 / 4)) : ℚ)) else 0) > 0
      then (5 : ℚ) else 2)
      = (if diffHours ride now < 3 ∧ 1 ≤ jsRound (rp.share_fare * (1 / 4))
         then (5 : ℚ) else 2) := by
    by_cases h1 : diffHours ride now < 3
    · by_cases h2 : 1 ≤ jsRound (rp.share_fare * (1 / 4))
      · have hpos : (0 : ℚ) < ((jsRound (rp.share_fare * (1 / 4)) : Int) : ℚ) := by
          exact_mod_cast (by omega : (0 : Int) < jsRound (rp.share_fare * (1 / 4)))
        rw [if_pos h1, if_pos (lt_max_iff.mpr (Or.inr hpos)),
          if_pos (And.intro h1 h2)]
      · have hnp : ((jsRound (rp.share_fare * (1 / 4)) : Int) : ℚ) ≤ 0 := by
          exact_mod_cast (by omega : jsRound (rp.share_fare * (1 / 4)) ≤ (0 : Int))
        rw [if_pos h1, max_eq_left hnp,
          if_neg (show ¬(diffHours ride now < 3 ∧
            1 ≤ jsRound (rp.share_fare * (1 / 4))) from fun hc => h2 hc.2)]
        norm_num
    · rw [if_neg h1,
        if_neg (show ¬(diffHours ride now < 3 ∧
          1 ≤ jsRound (rp.share_fare * (1 / 4))) from fun hc => h1 hc.1)]
      norm_num
  refine ⟨_, _, cancelRide_part_eq w uid rid now rp ride hp hr, ?_⟩
  show (updateUserPenalty w.users uid _).find? (fun x => x.user_id == uid) = _
  rw [find?_updateUserPenalty]
  unfold findUser at hu
  rw [hu, Option.map_some']
  simp only [huid, beq_self_eq_true, if_true, Option.some.injEq]
  rw [hdec]

def rideC1 : Ride :=
  { ride_id := 1, driver_id := 1, vehicle_id := 1,
    start_location := "a", end_location := "b",
    start_date := ⟨100, 0, 0, 0, 0⟩, start_time := ⟨0, 12, 0, 0, 0⟩,
    total_fare := 2, max_passengers := 4, status := RideStatus.open_ }

def rpC1 : RideParticipant :=
  { id := 0, ride_id := 1, user_id := 2, status := PStatus.booked,
    share_fare := 1, booking_time := 0 }

def wC1 : World :=
  { rides := [rideC1], participants := [rpC1],
    users := [⟨1, 100, 0⟩, ⟨2, 100, 0⟩], vehicles := [],
    cancellations := [], nextPid := 1 }

def nowC1 : DateTime := ⟨100, 11, 0, 0, 0⟩

theorem participant_cancel_penalty_witness :
    ∃ w' pen, cancelRide wC1 2 1 nowC1 = .ok (w', .participant pen) ∧
      findUser w' 2 = some
        { user_id := 2, credibility_score := (100 : ℚ) -
            (if diffHours rideC1 nowC1 < 3 ∧
                1 ≤ jsRound (rpC1.share_fare * (1 / 4))
             then 5 else 2),
          cancellation_count := 1 } :=
  participant_cancel_penalty wC1 2 1 nowC1 rideC1 rpC1 ⟨2, 100, 0⟩
    rfl rfl rfl

/-- C1 (counterexample): a participant cancels one hour before the start
(`diffHours = 1 < 3`) with `share_fare = 1`; the credibility decrement
the code applies is 2, not the flat 5 the claim requires for
`diffHours < 3`. -/
theorem cancel_small_share_flat_two :
    diffHours rideC1 nowC1 < 3 ∧
    cancelRide wC1 2 1 nowC1 =
      .ok ({ rides := [rideC1],
             participants := [{ rpC1 with status := PStatus.cancelled }],
             users := [⟨1, 100, 0⟩, ⟨2, 98, 1⟩],
             vehicles := [],
             cancellations := [⟨1, 2, nowC1.getTime⟩],
             nextPid := 1 }, .participant 0) ∧
    (98 : ℚ) ≠ 100 - 5 := by
  refine ⟨?_, ?_, by norm_num⟩
  · norm_num [diffHours, cancelStart, DateTime.getTime, rideC1, nowC1]
  · norm_num [cancelRide, findParticipant, findRide, wC1, rideC1, rpC1,
      diffHours, cancelStart, DateTime.getTime, nowC1, jsRound, bookedOf,
      updateUserPenalty, updateRideStatus]

theorem last_participant_cancel_reopens_witness :
    ∃ w' pen, cancelRide wC1 2 1 nowC1 = .ok (w', .participant pen) ∧
      bookedCount w' 1 = 0 ∧
      findRide w' 1 = some { rideC1 with status := RideStatus.open_ } ∧
      findParticipant w' 1 2 =
        some { rpC1 with status := PStatus.cancelled } ∧
      w'.cancellations = wC1.cancellations ++
        [{ ride_id := 1, user_id := 2, cancelled_at := nowC1.getTime }] :=
  last_participant_cancel_reopens wC1 2 1 nowC1 rideC1 rpC1
    (by unfold WF; decide) rfl rfl rfl

def rpC10 : RideParticipant :=
  { id := 0, ride_id := 1, user_id := 2, status := PStatus.cancelled,
    share_fare := 20, booking_time := 0 }

def wC10 : World :=
  { rides := [rideC1], participants := [rpC10],
    users := [⟨2, 90, 1⟩], vehicles := [],
    cancellations := [⟨1, 2, 0⟩], nextPid := 1 }

theorem cancel_not_idempotent_witness :
    ∃ w' pen, cancelRide wC10 2 1 nowC1 = .ok (w', .participant pen) ∧
      w'.cancellations = wC10.cancellations ++
        [{ ride_id := 1, user_id := 2, cancelled_at := nowC1.getTime }] ∧
      ∃ d : ℚ, (d = 5 ∨ d = 2) ∧
        findUser w' 2 = some
          { user_id := 2, credibility_score := (90 : ℚ) - d,
            cancellation_count := 2 } :=
  cancel_not_idempotent wC10 2 1 nowC1 rideC1 rpC10 ⟨2, 90, 1⟩
    rfl rfl rfl rfl

/-- C5: a successful join persists for the joiner the share
`total_fare / (B + 2)` where `B` is the booked count before the join
(host and joiner complete the headcount), and every previously booked
participant row survives unchanged. -/
theorem join_share_fare (w : World) (uid rid : Nat) (now : DateTime)
    (ride : Ride) (w' : World) (p : RideParticipant)
    (hwf : WF w) (hr : findRide w rid = some ride)
    (hj : joinRide w uid rid now = .ok (w', p)) :
    p.share_fare = ride.total_fare / ((bookedCount w rid : ℚ) + 2) ∧
    p ∈ w'.participants ∧ p.status = PStatus.booked ∧
    (∀ q ∈ w.participants, q.status = PStatus.booked → q ∈ w'.participants) := by
  obtain ⟨ride2, hr2, _, _, _, _, hshare, hbranch⟩ := joinRide_ok hj
  have hre : ride = ride2 := by
    rw [hr] at hr2
    exact Option.some.injEq _ _ ▸ hr2
  subst hre
  obtain ⟨hnodupP, _, _⟩ := hwf
  rcases hbranch with ⟨hnone, hp2, rfl⟩ | ⟨e, hfp, hst, hp2, rfl⟩
  · refine ⟨hshare, ?_, ?_, ?_⟩
    · simp
    · rw [hp2]
    · intro q hq _
      exact List.mem_append.mpr (Or.inl hq)
  · have hmem := (findParticipant_mem hfp).1
    refine ⟨hshare, ?_, ?_, ?_⟩
    · have himg : (fun q => if q.id == e.id then
          { q with status := PStatus.booked,
                   share_fare := ride.total_fare /
                     ((bookedCount w rid : ℚ) + 2) }
          else q) e = p := by
        rw [hp2]
        simp
      exact himg ▸ List.mem_map_of_mem _ hmem
    · rw [hp2]
    · intro q hq hqb
      have hqe : q.id ≠ e.id := by
        intro heq
        have hqeq : q = e := List.inj_on_of_nodup_map hnodupP hq hmem heq
        rw [hqeq, hst] at hqb
        cases hqb
      have himg : (fun q2 => if q2.id == e.id then
          { q2 with status := PStatus.booked,
                    share_fare := ride.total_fare /
                      ((bookedCount w rid : ℚ) + 2) }
          else q2) q = q := by simp [hqe]
      exact himg ▸ List.mem_map_of_mem _ hq

def rideC5 : Ride :=
  { ride_id := 1, driver_id := 1, vehicle_id := 1,
    start_location := "a", end_location := "b",
    start_date := ⟨200, 0, 0, 0, 0⟩, start_time := ⟨0, 9, 0, 0, 0⟩,
    total_fare := 300, max_passengers := 4, status := RideStatus.open_ }

def wC5 : World :=
  { rides := [rideC5], participants := [],
    users := [⟨1, 100, 0⟩, ⟨2, 100, 0⟩], vehicles := [],
    cancellations := [], nextPid := 0 }

def tC5 : DateTime := ⟨150, 10, 0, 0, 0⟩

def p5 : RideParticipant :=
  { id := 0, ride_id := 1, user_id := 2, status := PStatus.booked,
    share_fare := 150, booking_time := tC5.getTime }

def w5' : World := { wC5 with participants := [p5], nextPid := 1 }

theorem join_share_fare_witness :
    p5.share_fare = rideC5.total_fare / ((bookedCount wC5 1 : ℚ) + 2) ∧
    p5 ∈ w5'.participants ∧ p5.status = PStatus.booked ∧
    (∀ q ∈ wC5.participants, q.status = PStatus.booked →
      q ∈ w5'.participants) :=
  join_share_fare wC5 2 1 tC5 rideC5 w5' p5 (by unfold WF; decide) rfl
    (by norm_num [joinRide, findRide, findParticipant, hasActiveBooking,
      bookedCount, bookedOf, wC5, rideC5, DateTime.getTime, tC5, p5, w5'])

/-- C6 (amended): `joinRide` checks its preconditions in the handler's
order and fails with the first violated one: `RideNotFound`,
`RideNotOpen`, `CannotBookOwnRide`, then `AlreadyInActiveRide` — whose
check matches the caller's booked participations on *any* ride with
status `open` and a future `start_date`, the target ride included — then
`RideFull`, then `AlreadyBooked` for an existing booked row, while an
existing cancelled row is reused by flipping it to `booked`. -/
theorem join_error_order (w : World) (uid rid : Nat) (now : DateTime) :
    (findRide w rid = none → joinRide w uid rid now = .error .RideNotFound) ∧
    (∀ ride, findRide w rid = some ride →
      (ride.status ≠ RideStatus.open_ →
        joinRide w uid rid now = .error .RideNotOpen) ∧
      (ride.status = RideStatus.open_ →
        (ride.driver_id = uid →
          joinRide w uid rid now = .error .CannotBookOwnRide) ∧
        (ride.driver_id ≠ uid →
          (hasActiveBooking w uid now = true →
            joinRide w uid rid now = .error .AlreadyInActiveRide) ∧
          (hasActiveBooking w uid now = false →
            ((bookedCount w rid : Int) + 1 ≥ ride.max_passengers →
              joinRide w uid rid now = .error .RideFull) ∧
            ((bookedCount w rid : Int) + 1 < ride.max_passengers →
              ∀ e, findParticipant w rid uid = some e →
                (e.status = PStatus.booked →
                  joinRide w uid rid now = .error .AlreadyBooked) ∧
                (e.status = PStatus.cancelled →
                  joinRide w uid rid now =
                    .ok ({ w with participants := w.participants.map (fun q =>
                             if q.id == e.id then
                               { q with status := PStatus.booked,
                                        share_fare := ride.total_fare /
                                          ((bookedCount w rid : ℚ) + 2) }
                             else q) },
                         { e with status := PStatus.booked,
                                  share_fare := ride.total_fare /
                                    ((bookedCount w rid : ℚ) + 2) }))))))) := by
  constructor
  · intro h0
    unfold joinRide
    rw [h0]
  · intro ride hr
    constructor
    · intro hst
      unfold joinRide
      rw [hr]
      dsimp only
      rw [if_pos hst]
    · intro hst
      constructor
      · intro hdr
        unfold joinRide
        rw [hr]
        dsimp only
        rw [if_neg (by simp [hst]), if_pos (by simp [hdr])]
      · intro hdr
        constructor
        · intro hab
          unfold joinRide
          rw [hr]
          dsimp only
          rw [if_neg (by simp [hst]), if_neg (by simp [hdr]), if_pos hab]
        · intro hab
          constructor
          · intro hcap
            unfold joinRide
            rw [hr]
            dsimp only
            rw [if_neg (by simp [hst]), if_neg (by simp [hdr]),
              if_neg (by simp [hab]), if_pos hcap]
          · intro hcap e he
            constructor
            · intro heb
              unfold joinRide
              rw [hr]
              dsimp only
              rw [if_neg (by simp [hst]), if_neg (by simp [hdr]),
                if_neg (by simp [hab]), if_neg (not_le.mpr hcap), he]
              dsimp only
              rw [if_pos (by simp [heb])]
            · intro hec
              unfold joinRide
              rw [hr]
              dsimp only
              rw [if_neg (by simp [hst]), if_neg (by simp [hdr]),
                if_neg (by simp [hab]), if_neg (not_le.mpr hcap), he]
              dsimp only
              rw [if_neg (by simp [hec])]

def rideC6 : Ride :=
  { ride_id := 1, driver_id := 1, vehicle_id := 1,
    start_location := "a", end_location := "b",
    start_date := ⟨300, 0, 0, 0, 0⟩, start_time := ⟨0, 9, 0, 0, 0⟩,
    total_fare := 100, max_passengers := 4, status := RideStatus.open_ }

def pC6 : RideParticipant :=
  { id := 0, ride_id := 1, user_id := 2, status := PStatus.booked,
    share_fare := 50, booking_time := 0 }

def wC6 : World :=
  { rides := [rideC6], participants := [pC6],
    users := [⟨1, 100, 0⟩, ⟨2, 100, 0⟩], vehicles := [],
    cancellations := [], nextPid := 1 }

def tC6 : DateTime := ⟨200, 10, 0, 0, 0⟩

/-- C6 (counterexample): the caller's only booked participation is on the
target ride itself — it is open, future, not full, and the caller is not
the driver, so the claim's cascade prescribes `AlreadyBooked`; the code
answers `AlreadyInActiveRide`, because its active-booking query does not
exclude the target ride. -/
theorem join_own_booking_active_error :
    joinRide wC6 2 1 tC6 = .error .AlreadyInActiveRide ∧
    (findRide wC6 1).map Ride.status = some RideStatus.open_ ∧
    (findRide wC6 1).map Ride.driver_id = some 1 ∧
    (findParticipant wC6 1 2).map RideParticipant.status =
      some PStatus.booked ∧
    ((bookedCount wC6 1 : Int) + 1 < 4) ∧
    (∀ p ∈ wC6.participants, p.ride_id = 1) ∧
    JoinError.AlreadyInActiveRide ≠ JoinError.AlreadyBooked := by
  exact ⟨rfl, rfl, rfl, rfl, by decide, by decide, by decide⟩

theorem join_error_order_witness :
    joinRide wC5 1 9 tC5 = .error .RideNotFound :=
  (join_error_order wC5 1 9 tC5).1 rfl

/-- C7 (amended): `startRide` answers `RideNotFound` for a missing ride,
then `NotRideOwner` whenever the caller is not the driver (this check
precedes the status check), then `InvalidState` when the status is not
`open`, then `TooEarly` while the wall clock is before the scheduled
start; when every guard passes it sets the ride's status to `active`. -/
theorem start_guard_order (w : World) (uid rid : Nat) (now : DateTime) :
    (findRide w rid = none → startRide w uid rid now = .error .RideNotFound) ∧
    (∀ ride, findRide w rid = some ride →
      (ride.driver_id ≠ uid →
        startRide w uid rid now = .error .NotRideOwner) ∧
      (ride.driver_id = uid →
        (ride.status ≠ RideStatus.open_ →
          startRide w uid rid now = .error .InvalidState) ∧
        (ride.status = RideStatus.open_ →
          (now.getTime < (scheduledStart ride).getTime →
            startRide w uid rid now = .error .TooEarly) ∧
          ((scheduledStart ride).getTime ≤ now.getTime →
            ∃ w', startRide w uid rid now = .ok w' ∧
              findRide w' rid =
                some { ride with status := RideStatus.active })))) := by
  constructor
  · intro h0
    unfold startRide
    rw [h0]
  · intro ride hr
    have hrid : ride.ride_id = rid := (findRide_mem hr).2
    constructor
    · intro hdr
      unfold startRide
      rw [hr]
      dsimp only
      rw [if_pos hdr]
    · intro hdr
      constructor
      · intro hst
        unfold startRide
        rw [hr]
        dsimp only
        rw [if_neg (by simp [hdr]), if_pos hst]
      · intro hst
        constructor
        · intro hte
          unfold startRide
          rw [hr]
          dsimp only
          rw [if_neg (by simp [hdr]), if_neg (by simp [hst]), if_pos hte]
        · intro hte
          refine ⟨{ w with
              rides := updateRideStatus w.rides rid RideStatus.active },
            ?_, ?_⟩
          · unfold startRide
            rw [hr]
            dsimp only
            rw [if_neg (by simp [hdr]), if_neg (by simp [hst]),
              if_neg (not_lt.mpr hte)]
          · show (updateRideStatus w.rides rid RideStatus.active).find?
                (fun r => r.ride_id == rid) = _
            rw [find?_updateRideStatus]
            unfold findRide at hr
            rw [hr, Option.map_some']
            simp [hrid]

def rideC7 : Ride :=
  { ride_id := 1, driver_id := 1, vehicle_id := 1,
    start_location := "a", end_location := "b",
    start_date := ⟨300, 0, 0, 0, 0⟩, start_time := ⟨0, 9, 0, 0, 0⟩,
    total_fare := 100, max_passengers := 4, status := RideStatus.completed }

def wC7 : World :=
  { rides := [rideC7], participants := [],
    users := [⟨1, 100, 0⟩, ⟨2, 100, 0⟩], vehicles := [],
    cancellations := [], nextPid := 0 }

def tC7 : DateTime := ⟨400, 10, 0, 0, 0⟩

/-- C7 (counterexample): the ride's status is `completed` (not `open`),
so the claim prescribes `InvalidState`; but the caller is also not the
driver, and the code checks ownership first, answering `NotRideOwner`. -/
theorem start_not_owner_priority :
    startRide wC7 2 1 tC7 = .error .NotRideOwner ∧
    (findRide wC7 1).map Ride.status = some RideStatus.completed ∧
    StartError.NotRideOwner ≠ StartError.InvalidState :=
  ⟨rfl, rfl, by decide⟩

theorem start_guard_order_witness :
    startRide wC7 1 9 tC7 = .error .RideNotFound :=
  (start_guard_order wC7 1 9 tC7).1 rfl

/-- C8 (amended): the server-side `rideCreateSchema` bounds
`max_passengers` only to the integer range 1–6; the bound does not
depend on `vehicle_type`, and any valid request — `auto` with
`max_passengers = 6` included — creates the ride with the requested
`max_passengers`.  An out-of-range request is rejected with a validation
error and no ride is created. -/
theorem create_max_passengers_range (w : World) (hostId : Nat)
    (i : RideCreateInput) (nv nr : Nat) :
    (rideCreateValid i = false → createRide w hostId i nv nr = .error ()) ∧
    (∀ v : VehicleType,
      rideCreateValid { i with vehicle_type := v } = rideCreateValid i) ∧
    (rideCreateValid i = true →
      ∃ w' r, createRide w hostId i nv nr = .ok (w', r) ∧
        r.max_passengers = i.max_passengers ∧
        1 ≤ i.max_passengers ∧ i.max_passengers ≤ 6 ∧
        r ∈ w'.rides ∧ r.status = RideStatus.open_) := by
  refine ⟨?_, ?_, ?_⟩
  · intro h0
    unfold createRide
    rw [if_neg (by simp [h0])]
  · intro v
    rfl
  · intro h1
    have hb : 1 ≤ i.max_passengers ∧ i.max_passengers ≤ 6 := by
      unfold rideCreateValid at h1
      simp only [Bool.and_eq_true, decide_eq_true_eq] at h1
      exact ⟨h1.1.2, h1.2⟩
    cases hcr : createRide w hostId i nv nr with
    | error e =>
      exfalso
      unfold createRide at hcr
      rw [if_pos h1] at hcr
      split at hcr <;> simp at hcr
    | ok pr =>
      obtain ⟨_, _, hrides, _, hmax, hstat⟩ := createRide_ok hcr
      exact ⟨pr.1, pr.2, rfl, hmax, hb.1, hb.2, by simp [hrides], hstat⟩

def wE : World :=
  { rides := [], participants := [], users := [], vehicles := [],
    cancellations := [], nextPid := 0 }

def i8 : RideCreateInput :=
  { start_location := "a", end_location := "b",
    start_date := ⟨1, 0, 0, 0, 0⟩, start_time := ⟨0, 9, 0, 0, 0⟩,
    total_fare := 100, vehicle_type := VehicleType.auto,
    max_passengers := 5 }

def r8 : Ride :=
  { ride_id := 9, driver_id := 1, vehicle_id := 7,
    start_location := "a", end_location := "b",
    start_date := ⟨1, 0, 0, 0, 0⟩, start_time := ⟨0, 9, 0, 0, 0⟩,
    total_fare := 100, max_passengers := 5, status := RideStatus.open_ }

/-- C8 (counterexample): an `auto` request with `max_passengers = 5`
passes the schema — which never consults the vehicle type — and the ride
is created with `max_passengers = 5`, above the claimed `auto ≤ 3`
bound. -/
theorem create_auto_six_accepted :
    i8.vehicle_type = VehicleType.auto ∧ i8.max_passengers = 5 ∧
    createRide wE 1 i8 7 9 =
      .ok ({ wE with rides := [r8],
                     vehicles := [{ vehicle_id := 7, user_id := 1,
                                    vehicle_type := VehicleType.auto }] },
           r8) ∧
    r8.max_passengers = 5 :=
  ⟨rfl, rfl, rfl, rfl⟩

theorem create_max_passengers_range_witness :
    ∃ w' r, createRide wE 1 i8 7 9 = .ok (w', r) ∧
      r.max_passengers = i8.max_passengers ∧
      1 ≤ i8.max_passengers ∧ i8.max_passengers ≤ 6 ∧
      r ∈ w'.rides ∧ r.status = RideStatus.open_ :=
  (create_max_passengers_range wE 1 i8 7 9).2.2 (by decide)

def rideC3a : Ride :=
  { ride_id := 10, driver_id := 1, vehicle_id := 1,
    start_location := "a", end_location := "b",
    start_date := ⟨500, 0, 0, 0, 0⟩, start_time := ⟨0, 9, 0, 0, 0⟩,
    total_fare := 100, max_passengers := 4, status := RideStatus.active }

def rideC3b : Ride :=
  { ride_id := 20, driver_id := 3, vehicle_id := 2,
    start_location := "c", end_location := "d",
    start_date := ⟨600, 0, 0, 0, 0⟩, start_time := ⟨0, 9, 0, 0, 0⟩,
    total_fare := 200, max_passengers := 4, status := RideStatus.open_ }

def pC3 : RideParticipant :=
  { id := 0, ride_id := 10, user_id := 2, status := PStatus.booked,
    share_fare := 50, booking_time := 0 }

def wC3 : World :=
  { rides := [rideC3a, rideC3b], participants := [pC3],
    users := [⟨1, 100, 0⟩, ⟨2, 100, 0⟩, ⟨3, 100, 0⟩], vehicles := [],
    cancellations := [], nextPid := 1 }

def tC3 : DateTime := ⟨400, 10, 0, 0, 0⟩

/-- C3 (code evaluation at the failing input): user 2 holds a booked
participation on ride 10, whose status is `active` with a future
`start_date`; joining the other open future ride 20 nevertheless
succeeds, because the active-booking filter
`ride.status in ["open", "booked"]` can never match an `active` ride. -/
theorem join_allowed_despite_active_ride :
    (findParticipant wC3 10 2).map RideParticipant.status =
      some PStatus.booked ∧
    (findRide wC3 10).map Ride.status = some RideStatus.active ∧
    ((findRide wC3 10).map
      (fun r => decide (tC3.getTime ≤ r.start_date.getTime))) = some true ∧
    (findRide wC3 20).map Ride.status = some RideStatus.open_ ∧
    (joinRide wC3 2 20 tC3).isOk = true := by
  exact ⟨rfl, rfl, rfl, rfl, by decide⟩

end RideShare
